import Mathlib

/-!
Verification of the SaaS-company backend (`src/index.js`).

Shallow embedding conventions:
* Mongo documents are Lean structures; schema-less / possibly-absent fields
  are `Option`-typed (`none` models JS `undefined`, non-array values where an
  array is expected, and the falsy "missing key" cases the code guards with
  truthiness checks).
* JS numbers are modelled as `ℚ` (all relevant arithmetic is on finite
  decimals; `x.toFixed(n)` becomes decimal rounding to `n` places, since the
  resulting string is non-empty and hence always truthy in JS).
* JS `Date` values (constructed from the `date` fields) are modelled as `Int`
  timestamps; only their ordering matters.
* JS truthiness on a number is `≠ 0`; on a string it is `≠ ""`; objects and
  arrays are always truthy, so an `Option`-typed object field is truthy iff
  it is `some`.
-/

/-- A company record: `ticker` is the join key; the remaining schema-less
display fields are opaque to the enrichment logic and modelled by `payload`. -/
structure Company where
  ticker : String
  payload : Nat
deriving DecidableEq

/-- The `raw_values` sub-document of a valuation-metrics record. -/
structure RawValues where
  current_revenue : Option ℚ
  current_grossProfit : Option ℚ
  current_netIncome : Option ℚ
deriving DecidableEq

/-- The `growth_metrics` sub-document of a valuation-metrics record. -/
structure GrowthMetrics where
  revenue_growth_pct : Option ℚ
  gross_profit_growth_pct : Option ℚ
  net_income_growth_pct : Option ℚ
deriving DecidableEq

/-- The `valuation_multiples_raw` (and `valuation_multiples`) sub-document. -/
structure ValuationMultiplesRaw where
  marketcap_to_revenue : Option ℚ
  marketcap_to_netincome : Option ℚ
  marketcap_to_grossprofit : Option ℚ
deriving DecidableEq

/-- A document of the `valuation_metrics` collection. -/
structure ValuationMetrics where
  market_cap : Option ℚ
  latest_fiscal_year : Option ℚ
  growth_metrics : Option GrowthMetrics
  raw_values : Option RawValues
  valuation_multiples : Option ValuationMultiplesRaw
  valuation_multiples_raw : Option ValuationMultiplesRaw
deriving DecidableEq

/-- One entry of a `FinancialData.income_statement` array. -/
structure IncomeStatementEntry where
  date : Int
  revenue : Option ℚ
  grossProfit : Option ℚ
  netIncome : Option ℚ
  calendarYear : Option ℚ
deriving DecidableEq

/-- One entry of a `FinancialData.market_cap` array. -/
structure MarketCapEntry where
  date : Int
  marketCap : ℚ
deriving DecidableEq

/-- A document of the `incomeusa` (FinancialData) collection.  `none` on a
field models both an absent key and a non-array value. -/
structure FinancialData where
  income_statement : Option (List IncomeStatementEntry)
  market_cap : Option (List MarketCapEntry)
deriving DecidableEq

/-- The `financials` object attached to an enriched company.  Fields the
tier-2 branch does not write are `none` there (absent key). -/
structure Financials where
  marketCap : Option ℚ
  revenue : Option ℚ
  grossProfit : Option ℚ
  netIncome : Option ℚ
  revenueGrowth : Option ℚ
  grossProfitGrowth : Option ℚ
  netIncomeGrowth : Option ℚ
  year : Option ℚ
  marketCapToRevenueMultiple : Option ℚ
  marketCapToNetIncomeMultiple : Option ℚ
  marketCapToGrossProfitMultiple : Option ℚ
  raw_values : Option RawValues
  current_revenue : Option ℚ
  current_grossProfit : Option ℚ
  current_netIncome : Option ℚ
deriving DecidableEq

/-- Result of the per-company enrichment map: the company spread plus an
optional `financials` key (`none` = no such key at all). -/
structure EnrichedCompany where
  company : Company
  financials : Option Financials
deriving DecidableEq

/-- Behaviour of `sort((a, b) => new Date(b.date) - new Date(a.date))[0]` on a non-empty
array: JS `Array.prototype.sort` is stable, so the head of the descending
sort is the earliest-indexed entry with the maximum date.  `latestBy` keeps
the current candidate unless a strictly later entry appears further right. -/
def latestBy {α : Type} (d : α → Int) : List α → Option α
  | [] => none
  | x :: xs =>
    match latestBy d xs with
    | none => some x
    | some y => if d y > d x then some y else some x

/-- The `financialData.income_statement && financialData.income_statement.length > 0`
guard followed by the descending sort and `[0]` (src/index.js lines 258-263). -/
def latestIncomeStatement (fd : FinancialData) : Option IncomeStatementEntry :=
  match fd.income_statement with
  | some l => if l.length > 0 then latestBy (fun e => e.date) l else none
  | none => none

/-- Same derivation for `market_cap` (src/index.js lines 266-271). -/
def latestMarketCap (fd : FinancialData) : Option MarketCapEntry :=
  match fd.market_cap with
  | some l => if l.length > 0 then latestBy (fun e => e.date) l else none
  | none => none

/-- Reading `financialDataMap[company.ticker] || empty-object`: an absent document behaves like
`{}`, whose `income_statement` is undefined. -/
def latestIncomeOf : Option FinancialData → Option IncomeStatementEntry
  | some fd => latestIncomeStatement fd
  | none => none

/-- Companion of `latestIncomeOf` for the market-cap array. -/
def latestMarketCapOf : Option FinancialData → Option MarketCapEntry
  | some fd => latestMarketCap fd
  | none => none

/-- JS `a || b` on two possibly-undefined numbers: the left operand wins
unless it is undefined or `0` (falsy). -/
def jsOrQ : Option ℚ → Option ℚ → Option ℚ
  | some x, b => if x = 0 then b else some x
  | none, b => b

/-- Model of `x.toFixed(2)`: decimal rounding (ECMAScript picks the larger of two
equally near candidates, i.e. half-up, which is `round`). -/
def round2 (q : ℚ) : ℚ := (round (q * 100) : ℤ) / 100

/-- Model of `x.toFixed(1)`: decimal rounding to one place. -/
def round1 (q : ℚ) : ℚ := (round (q * 10) : ℤ) / 10

/-- The tier-1 (precomputed) `financials` object (src/index.js lines 279-307).
`?.toFixed(k)` yields a non-empty (truthy) string when the operand exists, so
`... || null` on the multiples only converts undefined to null: `Option.map`. -/
def tier1Financials (vm : ValuationMetrics) (lis : Option IncomeStatementEntry) :
    Financials :=
  let cr := vm.raw_values.bind (fun r => r.current_revenue)
  let cg := vm.raw_values.bind (fun r => r.current_grossProfit)
  let cn := vm.raw_values.bind (fun r => r.current_netIncome)
  { marketCap := vm.market_cap
    revenue := jsOrQ cr (lis.bind (fun e => e.revenue))
    grossProfit := jsOrQ cg (lis.bind (fun e => e.grossProfit))
    netIncome := jsOrQ cn (lis.bind (fun e => e.netIncome))
    revenueGrowth :=
      (vm.growth_metrics.bind (fun g => g.revenue_growth_pct)).map round1
    grossProfitGrowth :=
      (vm.growth_metrics.bind (fun g => g.gross_profit_growth_pct)).map round1
    netIncomeGrowth :=
      (vm.growth_metrics.bind (fun g => g.net_income_growth_pct)).map round1
    year := jsOrQ vm.latest_fiscal_year (lis.bind (fun e => e.calendarYear))
    marketCapToRevenueMultiple :=
      (vm.valuation_multiples_raw.bind (fun m => m.marketcap_to_revenue)).map round2
    marketCapToNetIncomeMultiple :=
      (vm.valuation_multiples_raw.bind (fun m => m.marketcap_to_netincome)).map round2
    marketCapToGrossProfitMultiple :=
      (vm.valuation_multiples_raw.bind (fun m => m.marketcap_to_grossprofit)).map round2
    raw_values := vm.raw_values
    current_revenue := cr
    current_grossProfit := cg
    current_netIncome := cn }

/-- The tier-2 / no-data fallback (src/index.js lines 310-337): derived
multiples when both a latest income statement and a latest market cap exist,
otherwise the company unchanged with no `financials` key. -/
def tier2Enrich (c : Company) (lis : Option IncomeStatementEntry)
    (lmc : Option MarketCapEntry) : EnrichedCompany :=
  match lis, lmc with
  | some inc, some m =>
    { company := c
      financials := some
        { marketCap := some m.marketCap
          revenue := inc.revenue
          grossProfit := inc.grossProfit
          netIncome := inc.netIncome
          revenueGrowth := none
          grossProfitGrowth := none
          netIncomeGrowth := none
          year := inc.calendarYear
          marketCapToRevenueMultiple :=
            match inc.revenue with
            | some x => if x = 0 then none else some (round2 (m.marketCap / x))
            | none => none
          marketCapToNetIncomeMultiple :=
            match inc.netIncome with
            | some x => if x = 0 then none else some (round2 (m.marketCap / x))
            | none => none
          marketCapToGrossProfitMultiple :=
            match inc.grossProfit with
            | some x => if x = 0 then none else some (round2 (m.marketCap / x))
            | none => none
          raw_values := none
          current_revenue := none
          current_grossProfit := none
          current_netIncome := none } }
  | _, _ => { company := c, financials := none }

/-- The guard `valuationMetrics && (valuationMetrics.growth_metrics || valuationMetrics.raw_values)`:
with the `|| {}` default an absent document fails the inner disjunction. -/
def vmHasPrecomputed : Option ValuationMetrics → Bool
  | some vm => vm.growth_metrics.isSome || vm.raw_values.isSome
  | none => false

/-- The whole per-company enrichment closure (src/index.js lines 253-338). -/
def enrichCompany (c : Company) (fdOpt : Option FinancialData)
    (vmOpt : Option ValuationMetrics) : EnrichedCompany :=
  let lis := latestIncomeOf fdOpt
  let lmc := latestMarketCapOf fdOpt
  match vmOpt with
  | some vm =>
    if vm.growth_metrics.isSome || vm.raw_values.isSome then
      { company := c, financials := some (tier1Financials vm lis) }
    else
      tier2Enrich c lis lmc
  | none => tier2Enrich c lis lmc

/-- A category of the United States region. -/
structure Category where
  name : Option String
  companies : Option (List Company)
deriving DecidableEq

/-- One region of the single denormalized `saascompnies` document. -/
structure Region where
  name : Option String
  exchangeName : Option String
  companies : Option (List Company)
  categories : Option (List Category)
deriving DecidableEq

/-- What `/^([^(]+)/` captures: the run of characters strictly before the
first `(`.  (Stated on `String.data` so that concrete witnesses evaluate.) -/
def beforeParen (n : String) : String :=
  String.mk (n.data.takeWhile (fun c => c ≠ '('))

/-- JS `String.prototype.trim`: strip leading and trailing whitespace. -/
def jsTrim (s : String) : String :=
  String.mk (((s.data.dropWhile Char.isWhitespace).reverse.dropWhile
    Char.isWhitespace).reverse)

/-- JS `String.prototype.startsWith`: case-sensitive literal prefix test. -/
def jsStartsWith (s pre : String) : Bool :=
  decide (s.data.take pre.data.length = pre.data)

/-- Country-name extraction of `/api/countries` (src/index.js lines 83-94):
`region.name.match(/^([^(]+)/)` succeeds iff at least one character precedes
the first `(`; on success the captured prefix is trimmed, otherwise the whole
name is trimmed.  A missing or empty (falsy) `name` yields `"Unknown"`. -/
def countryNameOf (r : Region) : String :=
  match r.name with
  | none => "Unknown"
  | some n =>
    if n = "" then "Unknown"
    else
      let pre := beforeParen n
      if pre = "" then jsTrim n else jsTrim pre

/-- Lexicographic comparison of character lists by code point: the order the
default JS `Array.prototype.sort()` uses on the country-name strings (code
units and code points agree on the basic multilingual plane). -/
def charListLe : List Char → List Char → Bool
  | [], _ => true
  | _ :: _, [] => false
  | x :: xs, y :: ys =>
    if x < y then true
    else if y < x then false
    else charListLe xs ys

/-- The string order used by `sort()`, as a decidable relation. -/
def strLe (a b : String) : Prop := charListLe a.data b.data = true

instance : DecidableRel strLe :=
  fun a b => instDecidableEqBool (charListLe a.data b.data) true

/-- Model of `[...new Set(xs)]`: deduplication keeping first occurrences in order. -/
def setDedup (l : List String) : List String :=
  l.foldl (fun acc x => if x ∈ acc then acc else acc ++ [x]) []

/-- The `/api/countries` pipeline (src/index.js lines 83-97): map, drop falsy
(empty) strings, deduplicate through a `Set`, and `sort()` (lexicographic). -/
def listCountries (regions : List Region) : List String :=
  List.insertionSort strLe
    (setDedup ((regions.map countryNameOf).filter (fun s => s ≠ "")))

/-- Modelled from the spec wording of claim C6 (for refinement comparison
only): each region maps to the whitespace-trimmed substring of its name
strictly before the first `(`, with `"Unknown"` substituted when `name` is
absent. -/
def countryNameClaim (r : Region) : String :=
  match r.name with
  | none => "Unknown"
  | some n => jsTrim (beforeParen n)

/-- Modelled from the spec wording of claim C6: sorted deduplicated list of
the per-region mapped names with empty results dropped. -/
def listCountriesClaim (regions : List Region) : List String :=
  List.insertionSort strLe
    (((regions.map countryNameClaim).filter (fun s => s ≠ "")).dedup)

/-- The amended C6 mapping: as the claim says, except that when no character
precedes the first `(` the whole trimmed name is kept, and an empty `name`
also maps to `"Unknown"`. -/
def countryNameAmended (r : Region) : String :=
  match r.name with
  | none => "Unknown"
  | some n =>
    if n = "" then "Unknown"
    else if beforeParen n = "" then jsTrim n
    else jsTrim (beforeParen n)

/-- The amended C6 pipeline, stated with `List.dedup` (last occurrences) to
keep it independent of the order in which the code's `Set` deduplicates. -/
def listCountriesAmended (regions : List Region) : List String :=
  List.insertionSort strLe
    (((regions.map countryNameAmended).filter (fun s => s ≠ "")).dedup)

/-- The test `region && region.name && region.name.startsWith(countryName)`
(src/index.js lines 123-125): an absent or empty name never matches. -/
def regionNameMatches (countryName : String) (r : Region) : Bool :=
  match r.name with
  | some n => decide (n ≠ "") && jsStartsWith n countryName
  | none => false

/-- The lookup `data.regions.find(...)` for `/api/country/:countryName` and
`/api/companies/:countryName`: first region whose name starts with the
requested country name. -/
def findRegion (countryName : String) (regions : List Region) : Option Region :=
  regions.find? (regionNameMatches countryName)

/-- The US "All" branch (src/index.js lines 206-213):
`matchingRegion.categories.reduce(...)`.  `none` models the `TypeError`
thrown when `categories` is absent (the request then ends as a 500). -/
def usAllCompanies (region : Region) : Option (List Company) :=
  match region.categories with
  | none => none
  | some cats =>
    some (cats.foldl
      (fun acc cat =>
        match cat.companies with
        | some cs => acc ++ cs
        | none => acc)
      [])

/-- Company selection of `/api/companies/:countryName`
(src/index.js lines 195-218).  `none` models a thrown `TypeError`
(categories accessed on a region that has none); `some cs` is the selected
list, `some []` when nothing matches. -/
def selectCompanies (countryName : String) (categoryQ : Option String)
    (region : Region) : Option (List Company) :=
  if jsStartsWith countryName "United States" then
    match categoryQ with
    | some cat =>
      if decide (cat ≠ "") && decide (cat ≠ "All") then
        match region.categories with
        | none => none
        | some cats =>
          match cats.find? (fun c2 => c2.name = some cat) with
          | some mc =>
            match mc.companies with
            | some cs => some cs
            | none => some []
          | none => some []
      else usAllCompanies region
    | none => usAllCompanies region
  else
    match region.companies with
    | some cs => some cs
    | none => some []

/-- A stored subscription document (email is lowercased by the schema on
save; `phone` optional). -/
structure Subscriber where
  email : String
  phone : Option String
deriving DecidableEq

/-- The two subscription collections: `notification_subscriptions` and
`metrics_update_subscriptions`. -/
structure SubState where
  allCountries : List Subscriber
  metricsUpdates : List Subscriber
deriving DecidableEq

/-- Per-collection outcome reported in `results` (`false`, `'created'` or
`'updated'`). -/
inductive SubOutcome where
  | notRequested
  | created
  | updated
deriving DecidableEq

/-- Body of a `POST /api/notifications/subscribe` request. -/
structure SubscribeReq where
  email : Option String
  phone : Option String
  notifyAllCountries : Bool
  notifyMetricsUpdates : Bool
deriving DecidableEq

/-- A character admitted by the `[^\s@]` class of the email regex. -/
def emailChar (c : Char) : Bool :=
  !c.isWhitespace && !(c == '@')

/-- The test `/^[^\s@]+@[^\s@]+\.[^\s@]+$/.test(email)` (src/index.js line 411).
Since the first class excludes `@`, the matched `@` is the first one; what
precedes it must be a non-empty run of admitted characters, and what follows
must be a non-empty run of admitted characters containing a `.` that is
neither its first nor its last character. -/
def emailValid (s : String) : Bool :=
  let cs := s.toList
  let a := cs.takeWhile (fun c => !(c == '@'))
  match cs.dropWhile (fun c => !(c == '@')) with
  | [] => false
  | _ :: t =>
    !a.isEmpty && a.all emailChar && !t.isEmpty && t.all emailChar &&
      (t.drop 1).dropLast.contains '.'

/-- JS truthiness of the optional `phone` string. -/
def phoneTruthy : Option String → Bool
  | some p => decide (p ≠ "")
  | none => false

/-- One collection's branch of the subscribe handler (src/index.js lines
434-479): find by email, update the phone when one is given and differs,
otherwise insert (`userData.phone = phone || undefined`).  The schema
lowercases emails on save and the query casting applies the same setter. -/
def upsertSubscription (subs : List Subscriber) (email : String)
    (phone : Option String) : List Subscriber × SubOutcome :=
  let key := email.toLower
  match subs.find? (fun s2 => s2.email = key) with
  | some ex =>
    (if phoneTruthy phone && decide (ex.phone ≠ phone) then
        subs.map (fun s2 => if s2.email = key then { s2 with phone := phone } else s2)
      else subs,
      SubOutcome.updated)
  | none =>
    (subs ++ [{ email := key, phone := if phoneTruthy phone then phone else none }],
      SubOutcome.created)

/-- Handler of `POST /api/notifications/subscribe` (src/index.js lines 402-491):
validation first (missing/falsy email, then the regex), then the two
optional collection writes.  Returns the HTTP status, the new state of both
collections, and the two `results` fields. -/
def subscribeHandler (st : SubState) (req : SubscribeReq) :
    Nat × SubState × SubOutcome × SubOutcome :=
  match req.email with
  | none => (400, st, SubOutcome.notRequested, SubOutcome.notRequested)
  | some e =>
    if e = "" then (400, st, SubOutcome.notRequested, SubOutcome.notRequested)
    else if !emailValid e then (400, st, SubOutcome.notRequested, SubOutcome.notRequested)
    else
      let (ac, acOut) :=
        if req.notifyAllCountries then upsertSubscription st.allCountries e req.phone
        else (st.allCountries, SubOutcome.notRequested)
      let (mu, muOut) :=
        if req.notifyMetricsUpdates then upsertSubscription st.metricsUpdates e req.phone
        else (st.metricsUpdates, SubOutcome.notRequested)
      (201, { allCountries := ac, metricsUpdates := mu }, acOut, muOut)

/-- The merged object returned by `/api/financials/:ticker` (src/index.js
lines 512-528).  `base` is the spread FinancialData document; note the code
overwrites its `market_cap` key with the valuation metrics' scalar when a
ValuationMetrics document exists, modelled by the separate scalar field. -/
structure FinancialsResponse where
  base : FinancialData
  growth_metrics : Option GrowthMetrics
  raw_values : Option RawValues
  market_cap : Option ℚ
  valuation_multiples : Option ValuationMultiplesRaw
  valuation_multiples_raw : Option ValuationMultiplesRaw
  latest_fiscal_year : Option ℚ
  current_revenue : Option ℚ
  current_grossProfit : Option ℚ
  current_netIncome : Option ℚ
deriving DecidableEq

/-- Handler of `GET /api/financials/:ticker` (src/index.js lines 494-535): 404 when no
FinancialData document exists; otherwise 200 with the merged object, the
valuation fields filled only when a ValuationMetrics document exists. -/
def financialsHandler (fdOpt : Option FinancialData)
    (vmOpt : Option ValuationMetrics) : Nat × Option FinancialsResponse :=
  match fdOpt with
  | none => (404, none)
  | some fd =>
    match vmOpt with
    | none =>
      (200, some
        { base := fd, growth_metrics := none, raw_values := none
          market_cap := none, valuation_multiples := none
          valuation_multiples_raw := none, latest_fiscal_year := none
          current_revenue := none, current_grossProfit := none
          current_netIncome := none })
    | some vm =>
      (200, some
        { base := fd
          growth_metrics := vm.growth_metrics
          raw_values := vm.raw_values
          market_cap := vm.market_cap
          valuation_multiples := vm.valuation_multiples
          valuation_multiples_raw := vm.valuation_multiples_raw
          latest_fiscal_year := vm.latest_fiscal_year
          current_revenue := vm.raw_values.bind (fun r => r.current_revenue)
          current_grossProfit := vm.raw_values.bind (fun r => r.current_grossProfit)
          current_netIncome := vm.raw_values.bind (fun r => r.current_netIncome) })

/-! ### Helper lemmas -/

theorem latestBy_eq_none_iff {α : Type} (d : α → Int) (l : List α) :
    latestBy d l = none ↔ l = [] := by
  cases l with
  | nil => simp [latestBy]
  | cons x xs =>
    simp only [latestBy]
    constructor
    · intro h
      cases hxs : latestBy d xs with
      | none => simp [hxs] at h
      | some y =>
        rw [hxs] at h
        by_cases hd : d y > d x <;> simp [hd] at h
    · intro h
      cases h

theorem latestBy_mem {α : Type} (d : α → Int) :
    ∀ {l : List α} {e : α}, latestBy d l = some e → e ∈ l := by
  intro l
  induction l with
  | nil => intro e h; cases h
  | cons x xs ih =>
    intro e h
    simp only [latestBy] at h
    cases hxs : latestBy d xs with
    | none =>
      rw [hxs] at h
      cases h
      exact List.mem_cons_self x xs
    | some y =>
      rw [hxs] at h
      dsimp only at h
      by_cases hd : d y > d x
      · rw [if_pos hd] at h
        cases h
        exact List.mem_cons_of_mem x (ih hxs)
      · rw [if_neg hd] at h
        cases h
        exact List.mem_cons_self x xs

theorem latestBy_max {α : Type} (d : α → Int) :
    ∀ {l : List α} {e : α}, latestBy d l = some e → ∀ x ∈ l, d x ≤ d e := by
  intro l
  induction l with
  | nil => intro e h; cases h
  | cons x xs ih =>
    intro e h z hz
    simp only [latestBy] at h
    cases hxs : latestBy d xs with
    | none =>
      rw [hxs] at h
      cases h
      rcases List.mem_cons.mp hz with hz | hz
      · exact le_of_eq (congrArg d hz)
      · exact absurd ((latestBy_eq_none_iff d xs).mp hxs ▸ hz) (List.not_mem_nil z)
    | some y =>
      rw [hxs] at h
      dsimp only at h
      by_cases hd : d y > d x
      · rw [if_pos hd] at h
        cases h
        rcases List.mem_cons.mp hz with hz | hz
        · exact le_of_lt (hz ▸ hd)
        · exact ih hxs z hz
      · rw [if_neg hd] at h
        cases h
        rcases List.mem_cons.mp hz with hz | hz
        · exact le_of_eq (congrArg d hz)
        · exact le_trans (ih hxs z hz) (le_of_not_lt hd)

theorem jsOrQ_some_ne_zero {a : ℚ} (b : Option ℚ) (ha : a ≠ 0) :
    jsOrQ (some a) b = some a := by
  simp [jsOrQ, ha]

theorem jsOrQ_none (b : Option ℚ) : jsOrQ none b = b := rfl

theorem jsOrQ_some_zero (b : Option ℚ) : jsOrQ (some 0) b = b := by
  simp [jsOrQ]

theorem tier2Enrich_of_missing (c : Company) (lis : Option IncomeStatementEntry)
    (lmc : Option MarketCapEntry) (h : lis = none ∨ lmc = none) :
    tier2Enrich c lis lmc = { company := c, financials := none } := by
  rcases h with h | h
  · subst h; cases lmc <;> rfl
  · subst h; cases lis <;> rfl

/-! ### Concrete documents used by witnesses and counterexamples -/

/-- Concrete company used in witnesses. -/
def cW : Company := { ticker := "ACME", payload := 7 }

/-- Income-statement entry dated 2022-01-01 (date as an epoch-day stamp). -/
def e2022 : IncomeStatementEntry :=
  { date := 18993, revenue := some 7, grossProfit := some 2, netIncome := some 5
    calendarYear := some 2022 }

/-- Income-statement entry dated 2023-01-01. -/
def e2023 : IncomeStatementEntry :=
  { date := 19358, revenue := some 8, grossProfit := some 4, netIncome := some 6
    calendarYear := some 2023 }

/-- FinancialData document with the 2022 and 2023 entries and two market-cap
entries, the later one of value 999. -/
def fdW : FinancialData :=
  { income_statement := some [e2022, e2023]
    market_cap := some
      [{ date := 18993, marketCap := 500 }, { date := 19358, marketCap := 999 }] }

/-- ValuationMetrics document with `raw_values` present, `market_cap` 100 and
a zero `current_netIncome`. -/
def vmW : ValuationMetrics :=
  { market_cap := some 100, latest_fiscal_year := some 2023
    growth_metrics := none
    raw_values := some
      { current_revenue := some 10, current_grossProfit := some 3
        current_netIncome := some 0 }
    valuation_multiples := none, valuation_multiples_raw := none }

/-- Entry whose fundamentals are zero, for the null-multiple cases. -/
def eZero : IncomeStatementEntry :=
  { date := 19358, revenue := some 8, grossProfit := some 0, netIncome := some 0
    calendarYear := some 2023 }

/-- FinancialData document whose only entry has zero net income. -/
def fdZ : FinancialData :=
  { income_statement := some [eZero]
    market_cap := some [{ date := 19358, marketCap := 999 }] }

/-- FinancialData document with no income-statement array at all. -/
def fdNoIS : FinancialData :=
  { income_statement := none
    market_cap := some [{ date := 18993, marketCap := 50 }] }

/-! ### C5: latest entries -/

/-- C5: for every FinancialData document, `latestIncomeStatement` is
`none` exactly when the `income_statement` array is absent or empty, and
otherwise returns an entry of that array whose `date` is maximal;
`latestMarketCap` is derived from `market_cap` by the same rule. -/
theorem latest_entries_are_max_by_date (fd : FinancialData) :
    (latestIncomeStatement fd = none ↔
      fd.income_statement = none ∨ fd.income_statement = some []) ∧
    (∀ l e, fd.income_statement = some l → latestIncomeStatement fd = some e →
      e ∈ l ∧ ∀ x ∈ l, x.date ≤ e.date) ∧
    (latestMarketCap fd = none ↔
      fd.market_cap = none ∨ fd.market_cap = some []) ∧
    (∀ l e, fd.market_cap = some l → latestMarketCap fd = some e →
      e ∈ l ∧ ∀ x ∈ l, x.date ≤ e.date) := by
  refine ⟨?_, ?_, ?_, ?_⟩
  · cases his : fd.income_statement with
    | none => simp [latestIncomeStatement, his]
    | some l =>
      cases l with
      | nil => simp [latestIncomeStatement, his]
      | cons x xs => simp [latestIncomeStatement, his, latestBy_eq_none_iff]
  · intro l e hl he
    simp only [latestIncomeStatement, hl] at he
    cases l with
    | nil => simp at he
    | cons x xs =>
      have hpos : (x :: xs).length > 0 := by simp
      rw [if_pos hpos] at he
      exact ⟨latestBy_mem _ he, latestBy_max _ he⟩
  · cases hmc : fd.market_cap with
    | none => simp [latestMarketCap, hmc]
    | some l =>
      cases l with
      | nil => simp [latestMarketCap, hmc]
      | cons x xs => simp [latestMarketCap, hmc, latestBy_eq_none_iff]
  · intro l e hl he
    simp only [latestMarketCap, hl] at he
    cases l with
    | nil => simp at he
    | cons x xs =>
      have hpos : (x :: xs).length > 0 := by simp
      rw [if_pos hpos] at he
      exact ⟨latestBy_mem _ he, latestBy_max _ he⟩

/-- Witness for C5: with entries dated 2022-01-01 and 2023-01-01 the 2023
entry is selected, and it is a maximal-date member of the array. -/
theorem latest_entries_witness :
    latestIncomeStatement fdW = some e2023 ∧
    e2023 ∈ [e2022, e2023] ∧ (∀ x ∈ [e2022, e2023], x.date ≤ e2023.date) := by
  have h := (latest_entries_are_max_by_date fdW).2.1 [e2022, e2023] e2023 rfl
    (by decide)
  exact ⟨by decide, h.1, h.2⟩

/-! ### C1: precomputed tier wins -/

/-- C1: whenever the ValuationMetrics record is present and has
`growth_metrics` or `raw_values`, enrichment takes the precomputed tier: the
`financials` object exists, its `marketCap` is the valuation metrics'
`market_cap` (its `raw_values` echo the record's, marking tier 1), and the
company fields pass through — regardless of what FinancialData holds. -/
theorem tier1_marketCap_from_valuation (c : Company) (fdOpt : Option FinancialData)
    (vm : ValuationMetrics)
    (h : vm.growth_metrics.isSome = true ∨ vm.raw_values.isSome = true) :
    (enrichCompany c fdOpt (some vm)).financials.map (fun f => f.marketCap) =
      some vm.market_cap ∧
    (enrichCompany c fdOpt (some vm)).financials.map (fun f => f.raw_values) =
      some vm.raw_values ∧
    (enrichCompany c fdOpt (some vm)).company = c := by
  have hb : (vm.growth_metrics.isSome || vm.raw_values.isSome) = true := by
    rcases h with h | h <;> simp [h]
  simp [enrichCompany, hb, tier1Financials]

/-- Witness for C1: both tiers' data exist; the latest market-cap entry is
999 but the enriched `marketCap` is the valuation metrics' 100. -/
theorem tier1_marketCap_witness :
    (enrichCompany cW (some fdW) (some vmW)).financials.map (fun f => f.marketCap) =
      some (some 100) ∧
    (latestMarketCapOf (some fdW)).map (fun m => m.marketCap) = some 999 ∧
    some (some (100 : ℚ)) ≠ some (some (999 : ℚ)) :=
  ⟨(tier1_marketCap_from_valuation cW (some fdW) vmW (Or.inr rfl)).1,
    by decide, by decide⟩

/-! ### C2: tier-1 raw-value fallback -/

/-- Counterexample for C2: the claim says the latest income statement is used
*only when the raw current value is absent*; but with `current_netIncome`
present and equal to 0 (JS falsy), the code still falls back — here to the
2023 income statement's net income of 6. -/
theorem tier1_raw_fallback_counterexample :
    ¬ (∀ (c : Company) (fdOpt : Option FinancialData) (vm : ValuationMetrics),
        (vm.growth_metrics.isSome = true ∨ vm.raw_values.isSome = true) →
        ∀ x : ℚ, vm.raw_values.bind (fun r => r.current_netIncome) = some x →
          (enrichCompany c fdOpt (some vm)).financials.map (fun f => f.netIncome) =
            some (some x)) := by
  intro hclaim
  have h := hclaim cW (some fdW) vmW (Or.inr rfl) 0 rfl
  have hactual : (enrichCompany cW (some fdW) (some vmW)).financials.map
      (fun f => f.netIncome) = some (some 6) := by decide
  rw [hactual] at h
  exact absurd h (by decide)

/-- C2 (amended): in tier-1 enrichment, `revenue`, `grossProfit` and
`netIncome` each equal the valuation metrics' raw current value when it is
present *and non-zero*, and fall back individually to the latest income
statement's corresponding field when the raw value is absent *or zero*
(JS `||` treats 0 as falsy). -/
theorem tier1_raw_value_fallback (c : Company) (fdOpt : Option FinancialData)
    (vm : ValuationMetrics)
    (h : vm.growth_metrics.isSome = true ∨ vm.raw_values.isSome = true) :
    ((∀ x : ℚ, vm.raw_values.bind (fun r => r.current_revenue) = some x → x ≠ 0 →
        (enrichCompany c fdOpt (some vm)).financials.map (fun f => f.revenue) =
          some (some x)) ∧
      ((vm.raw_values.bind (fun r => r.current_revenue) = none ∨
          vm.raw_values.bind (fun r => r.current_revenue) = some 0) →
        (enrichCompany c fdOpt (some vm)).financials.map (fun f => f.revenue) =
          some ((latestIncomeOf fdOpt).bind (fun e => e.revenue)))) ∧
    ((∀ x : ℚ, vm.raw_values.bind (fun r => r.current_grossProfit) = some x → x ≠ 0 →
        (enrichCompany c fdOpt (some vm)).financials.map (fun f => f.grossProfit) =
          some (some x)) ∧
      ((vm.raw_values.bind (fun r => r.current_grossProfit) = none ∨
          vm.raw_values.bind (fun r => r.current_grossProfit) = some 0) →
        (enrichCompany c fdOpt (some vm)).financials.map (fun f => f.grossProfit) =
          some ((latestIncomeOf fdOpt).bind (fun e => e.grossProfit)))) ∧
    ((∀ x : ℚ, vm.raw_values.bind (fun r => r.current_netIncome) = some x → x ≠ 0 →
        (enrichCompany c fdOpt (some vm)).financials.map (fun f => f.netIncome) =
          some (some x)) ∧
      ((vm.raw_values.bind (fun r => r.current_netIncome) = none ∨
          vm.raw_values.bind (fun r => r.current_netIncome) = some 0) →
        (enrichCompany c fdOpt (some vm)).financials.map (fun f => f.netIncome) =
          some ((latestIncomeOf fdOpt).bind (fun e => e.netIncome)))) := by
  have hb : (vm.growth_metrics.isSome || vm.raw_values.isSome) = true := by
    rcases h with h | h <;> simp [h]
  refine ⟨⟨?_, ?_⟩, ⟨?_, ?_⟩, ⟨?_, ?_⟩⟩
  · intro x hx hxne
    simp [enrichCompany, hb, tier1Financials, hx, jsOrQ_some_ne_zero _ hxne]
  · intro hx
    rcases hx with hx | hx <;>
      simp [enrichCompany, hb, tier1Financials, hx, jsOrQ_none, jsOrQ_some_zero]
  · intro x hx hxne
    simp [enrichCompany, hb, tier1Financials, hx, jsOrQ_some_ne_zero _ hxne]
  · intro hx
    rcases hx with hx | hx <;>
      simp [enrichCompany, hb, tier1Financials, hx, jsOrQ_none, jsOrQ_some_zero]
  · intro x hx hxne
    simp [enrichCompany, hb, tier1Financials, hx, jsOrQ_some_ne_zero _ hxne]
  · intro hx
    rcases hx with hx | hx <;>
      simp [enrichCompany, hb, tier1Financials, hx, jsOrQ_none, jsOrQ_some_zero]

/-- Witness for C2 (amended): non-zero raw revenue 10 is used directly, while
the zero raw net income falls back to the 2023 statement's 6. -/
theorem tier1_raw_value_fallback_witness :
    (enrichCompany cW (some fdW) (some vmW)).financials.map (fun f => f.revenue) =
      some (some 10) ∧
    (enrichCompany cW (some fdW) (some vmW)).financials.map (fun f => f.netIncome) =
      some (some 6) := by
  have h := tier1_raw_value_fallback cW (some fdW) vmW (Or.inr rfl)
  refine ⟨h.1.1 10 rfl (by decide), ?_⟩
  have h2 := h.2.2.2 (Or.inr rfl)
  rw [h2]
  decide

/-! ### C3: tier-2 derived multiples -/

/-- C3: in tier-2 enrichment (no usable valuation metrics, but both a
latest income statement and a latest market cap), each multiple equals
`marketCap` divided by its denominator, rounded to 2 decimals, when the
denominator is present and non-zero, and is null when the denominator is
zero or absent.  The computation is a total function on `ℚ` — no exception,
`NaN` or `Infinity` can arise. -/
theorem tier2_multiples (c : Company) (fdOpt : Option FinancialData)
    (vmOpt : Option ValuationMetrics)
    (hvm : vmHasPrecomputed vmOpt = false)
    (inc : IncomeStatementEntry) (m : MarketCapEntry)
    (hinc : latestIncomeOf fdOpt = some inc)
    (hmc : latestMarketCapOf fdOpt = some m) :
    ((∀ x : ℚ, inc.netIncome = some x → x ≠ 0 →
        (enrichCompany c fdOpt vmOpt).financials.map
            (fun f => f.marketCapToNetIncomeMultiple) =
          some (some (round2 (m.marketCap / x)))) ∧
      ((inc.netIncome = none ∨ inc.netIncome = some 0) →
        (enrichCompany c fdOpt vmOpt).financials.map
            (fun f => f.marketCapToNetIncomeMultiple) = some none)) ∧
    ((∀ x : ℚ, inc.grossProfit = some x → x ≠ 0 →
        (enrichCompany c fdOpt vmOpt).financials.map
            (fun f => f.marketCapToGrossProfitMultiple) =
          some (some (round2 (m.marketCap / x)))) ∧
      ((inc.grossProfit = none ∨ inc.grossProfit = some 0) →
        (enrichCompany c fdOpt vmOpt).financials.map
            (fun f => f.marketCapToGrossProfitMultiple) = some none)) ∧
    ((∀ x : ℚ, inc.revenue = some x → x ≠ 0 →
        (enrichCompany c fdOpt vmOpt).financials.map
            (fun f => f.marketCapToRevenueMultiple) =
          some (some (round2 (m.marketCap / x)))) ∧
      ((inc.revenue = none ∨ inc.revenue = some 0) →
        (enrichCompany c fdOpt vmOpt).financials.map
            (fun f => f.marketCapToRevenueMultiple) = some none)) := by
  have henrich : enrichCompany c fdOpt vmOpt = tier2Enrich c (some inc) (some m) := by
    cases vmOpt with
    | none => simp only [enrichCompany, hinc, hmc]
    | some vm =>
      simp only [vmHasPrecomputed] at hvm
      simp only [enrichCompany, hinc, hmc, hvm, Bool.false_eq_true, if_false]
  rw [henrich]
  refine ⟨⟨?_, ?_⟩, ⟨?_, ?_⟩, ⟨?_, ?_⟩⟩
  · intro x hx hxne
    simp [tier2Enrich, hx, hxne]
  · intro hx
    rcases hx with hx | hx <;> simp [tier2Enrich, hx]
  · intro x hx hxne
    simp [tier2Enrich, hx, hxne]
  · intro hx
    rcases hx with hx | hx <;> simp [tier2Enrich, hx]
  · intro x hx hxne
    simp [tier2Enrich, hx, hxne]
  · intro hx
    rcases hx with hx | hx <;> simp [tier2Enrich, hx]

/-- Witness for C3: with zero net income the multiple is null; with net
income 6 and market cap 999 it is `round2 (999 / 6)`. -/
theorem tier2_multiples_witness :
    (enrichCompany cW (some fdZ) none).financials.map
        (fun f => f.marketCapToNetIncomeMultiple) = some none ∧
    (enrichCompany cW (some fdW) none).financials.map
        (fun f => f.marketCapToNetIncomeMultiple) =
      some (some (round2 (999 / 6))) := by
  constructor
  · exact (tier2_multiples cW (some fdZ) none rfl eZero
      { date := 19358, marketCap := 999 } (by decide) (by decide)).1.2 (Or.inr rfl)
  · exact (tier2_multiples cW (some fdW) none rfl e2023
      { date := 19358, marketCap := 999 } (by decide) (by decide)).1.1 6 rfl (by decide)

/-! ### C4: no-data tier -/

/-- C4: when neither tier precondition holds — no valuation metrics with
`growth_metrics` or `raw_values`, and not both a latest income statement and
a latest market-cap entry — enrichment returns the company record unchanged,
with no `financials` field at all. -/
theorem no_data_enrichment (c : Company) (fdOpt : Option FinancialData)
    (vmOpt : Option ValuationMetrics)
    (h1 : vmHasPrecomputed vmOpt = false)
    (h2 : latestIncomeOf fdOpt = none ∨ latestMarketCapOf fdOpt = none) :
    enrichCompany c fdOpt vmOpt = { company := c, financials := none } := by
  cases vmOpt with
  | none =>
    simp only [enrichCompany]
    exact tier2Enrich_of_missing c _ _ h2
  | some vm =>
    simp only [vmHasPrecomputed] at h1
    simp only [enrichCompany, h1, Bool.false_eq_true, if_false]
    exact tier2Enrich_of_missing c _ _ h2

/-- Witness for C4: a FinancialData document without an income-statement
array and no ValuationMetrics record leave the company untouched. -/
theorem no_data_enrichment_witness :
    enrichCompany cW (some fdNoIS) none = { company := cW, financials := none } :=
  no_data_enrichment cW (some fdNoIS) none rfl (Or.inl rfl)

/-! ### Order properties of the sort comparison -/

theorem charListLe_total : ∀ cs ds, charListLe cs ds = true ∨ charListLe ds cs = true
  | [], _ => Or.inl rfl
  | _ :: _, [] => Or.inr rfl
  | x :: xs, y :: ys => by
    by_cases hxy : x < y
    · left; simp [charListLe, hxy]
    · by_cases hyx : y < x
      · right; simp [charListLe, hyx, hxy]
      · have hx : x = y := le_antisymm (not_lt.mp hyx) (not_lt.mp hxy)
        subst hx
        rcases charListLe_total xs ys with h | h
        · left; simp [charListLe, hxy, h]
        · right; simp [charListLe, hxy, h]

theorem charListLe_trans : ∀ as bs cs, charListLe as bs = true →
    charListLe bs cs = true → charListLe as cs = true
  | [], _, _ => by intro _ _; rfl
  | _ :: _, [], _ => by intro h _; simp [charListLe] at h
  | _ :: _, _ :: _, [] => by intro _ h; simp [charListLe] at h
  | a :: as, b :: bs, c :: cs => by
    intro h1 h2
    simp only [charListLe] at h1 h2 ⊢
    by_cases hab : a < b
    · by_cases hbc : b < c
      · simp [lt_trans hab hbc]
      · by_cases hcb : c < b
        · simp [charListLe, hbc, hcb] at h2
        · have : b = c := le_antisymm (not_lt.mp hcb) (not_lt.mp hbc)
          subst this
          simp [hab]
    · by_cases hba : b < a
      · simp [hab, hba] at h1
      · have : a = b := le_antisymm (not_lt.mp hba) (not_lt.mp hab)
        subst this
        by_cases hbc : a < c
        · simp [hbc]
        · by_cases hcb : c < a
          · simp [hbc, hcb] at h2
          · simp only [if_neg hab, if_neg hba] at h1
            simp only [if_neg hbc, if_neg hcb] at h2 ⊢
            exact charListLe_trans as bs cs h1 h2

theorem charListLe_antisymm : ∀ as bs, charListLe as bs = true →
    charListLe bs as = true → as = bs
  | [], [] => by intro _ _; rfl
  | [], _ :: _ => by intro _ h; simp [charListLe] at h
  | _ :: _, [] => by intro h _; simp [charListLe] at h
  | a :: as, b :: bs => by
    intro h1 h2
    simp only [charListLe] at h1 h2
    by_cases hab : a < b
    · simp [hab, asymm hab] at h2
    · by_cases hba : b < a
      · simp [hab, hba] at h1
      · have hx : a = b := le_antisymm (not_lt.mp hba) (not_lt.mp hab)
        subst hx
        simp only [if_neg hab, if_neg hba] at h1 h2
        rw [charListLe_antisymm as bs h1 h2]

instance : IsTotal String strLe :=
  ⟨fun a b => charListLe_total a.data b.data⟩

instance : IsTrans String strLe :=
  ⟨fun a b c => charListLe_trans a.data b.data c.data⟩

instance : IsAntisymm String strLe :=
  ⟨fun a b h1 h2 => by
    cases a; cases b
    exact congrArg String.mk (charListLe_antisymm _ _ h1 h2)⟩

/-! ### Properties of the Set-based deduplication -/

theorem setDedup_loop_mem (x : String) : ∀ (l acc : List String),
    (x ∈ l.foldl (fun acc y => if y ∈ acc then acc else acc ++ [y]) acc ↔
      x ∈ acc ∨ x ∈ l)
  | [], acc => by simp
  | y :: l, acc => by
    rw [List.foldl_cons, setDedup_loop_mem x l]
    by_cases hy : y ∈ acc
    · simp only [if_pos hy]
      constructor
      · rintro (h | h)
        · exact Or.inl h
        · exact Or.inr (List.mem_cons_of_mem y h)
      · rintro (h | h)
        · exact Or.inl h
        · rcases List.mem_cons.mp h with h | h
          · exact Or.inl (h ▸ hy)
          · exact Or.inr h
    · simp only [if_neg hy, List.mem_append, List.mem_singleton, List.mem_cons]
      tauto

theorem setDedup_loop_nodup : ∀ (l acc : List String), acc.Nodup →
    (l.foldl (fun acc y => if y ∈ acc then acc else acc ++ [y]) acc).Nodup
  | [], acc => fun h => h
  | y :: l, acc => fun h => by
    rw [List.foldl_cons]
    by_cases hy : y ∈ acc
    · rw [if_pos hy]
      exact setDedup_loop_nodup l acc h
    · rw [if_neg hy]
      refine setDedup_loop_nodup l (acc ++ [y]) ?_
      simp [List.nodup_append, h, hy]

theorem setDedup_loop_length : ∀ (l acc : List String),
    (l.foldl (fun acc y => if y ∈ acc then acc else acc ++ [y]) acc).length ≤
      acc.length + l.length
  | [], acc => by simp
  | y :: l, acc => by
    rw [List.foldl_cons]
    by_cases hy : y ∈ acc
    · rw [if_pos hy]
      calc (l.foldl _ acc).length ≤ acc.length + l.length := setDedup_loop_length l acc
        _ ≤ acc.length + (y :: l).length := by simp
    · rw [if_neg hy]
      calc (l.foldl _ (acc ++ [y])).length ≤ (acc ++ [y]).length + l.length :=
          setDedup_loop_length l (acc ++ [y])
        _ = acc.length + (y :: l).length := by simp; omega

theorem setDedup_mem (x : String) (l : List String) :
    x ∈ setDedup l ↔ x ∈ l := by
  rw [setDedup, setDedup_loop_mem]
  simp

theorem setDedup_nodup (l : List String) : (setDedup l).Nodup :=
  setDedup_loop_nodup l [] List.nodup_nil

theorem setDedup_length (l : List String) : (setDedup l).length ≤ l.length := by
  have := setDedup_loop_length l []
  simpa [setDedup] using this

/-! ### C6: country listing -/

/-- Region whose name starts with a parenthesis: `/^([^(]+)/` fails to match
and the code keeps the whole trimmed name. -/
def rParen : Region :=
  { name := some "(USA)", exchangeName := none, companies := none
    categories := none }

/-- Counterexample for C6: on a region named `"(USA)"`, the claimed mapping
(substring strictly before the first parenthesis, so the empty string, then
dropped) disagrees with the code, which returns the name whole. -/
theorem listCountries_counterexample :
    listCountries [rParen] ≠ listCountriesClaim [rParen] ∧
    listCountries [rParen] = ["(USA)"] ∧
    listCountriesClaim [rParen] = [] := by
  refine ⟨by decide, by decide, by decide⟩

theorem countryNameAmended_eq (r : Region) :
    countryNameAmended r = countryNameOf r := by
  cases r.name <;> rfl

/-- C6 (amended): `listCountries` equals the ascending-sorted,
deduplicated sequence obtained by mapping each region to the trimmed
substring of its name before the first `(` — except that when no character
precedes the first `(` the whole trimmed name is kept, and an absent *or
empty* name becomes `"Unknown"` — with falsy (empty) results dropped; the
output is sorted, duplicate-free, and no longer than the region list. -/
theorem listCountries_sorted_dedup (regions : List Region) :
    listCountries regions = listCountriesAmended regions ∧
    List.Sorted strLe (listCountries regions) ∧
    (listCountries regions).Nodup ∧
    (listCountries regions).length ≤ regions.length := by
  have hmap : regions.map countryNameAmended = regions.map countryNameOf :=
    List.map_congr_left (fun r _ => countryNameAmended_eq r)
  have hperm : List.Perm
      (setDedup ((regions.map countryNameOf).filter (fun s => s ≠ "")))
      (((regions.map countryNameOf).filter (fun s => s ≠ "")).dedup) := by
    rw [List.perm_ext_iff_of_nodup (setDedup_nodup _) (List.nodup_dedup _)]
    intro a
    rw [setDedup_mem, List.mem_dedup]
  refine ⟨?_, List.sorted_insertionSort _ _, ?_, ?_⟩
  · unfold listCountries listCountriesAmended
    rw [hmap]
    exact List.eq_of_perm_of_sorted
      (((List.perm_insertionSort _ _).trans hperm).trans
        (List.perm_insertionSort _ _).symm)
      (List.sorted_insertionSort _ _) (List.sorted_insertionSort _ _)
  · exact ((List.perm_insertionSort strLe _).nodup_iff).mpr (setDedup_nodup _)
  · calc (listCountries regions).length =
        (setDedup ((regions.map countryNameOf).filter (fun s => s ≠ ""))).length :=
          (List.perm_insertionSort _ _).length_eq
      _ ≤ ((regions.map countryNameOf).filter (fun s => s ≠ "")).length :=
          setDedup_length _
      _ ≤ (regions.map countryNameOf).length := List.length_filter_le _ _
      _ = regions.length := List.length_map _ _

/-! ### C7: region prefix match -/

theorem find?_split {α : Type} (p : α → Bool) : ∀ (l : List α) (r : α),
    l.find? p = some r →
    p r = true ∧ ∃ l1 l2, l = l1 ++ r :: l2 ∧ ∀ x ∈ l1, p x = false
  | [], r => by intro h; cases h
  | x :: xs, r => by
    intro h
    by_cases hx : p x = true
    · rw [List.find?_cons_of_pos _ hx] at h
      cases h
      exact ⟨hx, [], xs, rfl, by simp⟩
    · rw [List.find?_cons_of_neg _ hx] at h
      obtain ⟨hp, l1, l2, hsplit, hall⟩ := find?_split p xs r h
      refine ⟨hp, x :: l1, l2, by rw [hsplit]; rfl, ?_⟩
      intro z hz
      rcases List.mem_cons.mp hz with hz | hz
      · subst hz
        exact Bool.not_eq_true _ ▸ (eq_false_of_ne_true hx)
      · exact hall z hz

theorem jsStartsWith_iff (s pre : String) :
    jsStartsWith s pre = true ↔ ∃ t, s.data = pre.data ++ t := by
  unfold jsStartsWith
  rw [decide_eq_true_eq]
  constructor
  · intro h
    exact ⟨s.data.drop pre.data.length, by
      conv_lhs => rw [← List.take_append_drop pre.data.length s.data]
      rw [h]⟩
  · rintro ⟨t, ht⟩
    rw [ht]
    exact List.take_left pre.data t

/-- C7: `findRegion` returns the first region whose (non-empty) name has
the requested country name as a literal prefix — case-sensitive, with the
parenthetical qualifier still attached; when it returns nothing, no region
matches. -/
theorem findRegion_first_prefix_match (cn : String) (regions : List Region) :
    (∀ r, findRegion cn regions = some r →
      (∃ n t, r.name = some n ∧ n ≠ "" ∧ n.data = cn.data ++ t) ∧
      ∃ l1 l2, regions = l1 ++ r :: l2 ∧
        ∀ x ∈ l1, regionNameMatches cn x = false) ∧
    (findRegion cn regions = none →
      ∀ x ∈ regions, regionNameMatches cn x = false) := by
  constructor
  · intro r h
    obtain ⟨hp, l1, l2, hsplit, hall⟩ := find?_split _ regions r h
    refine ⟨?_, l1, l2, hsplit, hall⟩
    cases hn : r.name with
    | none => rw [regionNameMatches, hn] at hp; cases hp
    | some n =>
      rw [regionNameMatches, hn, Bool.and_eq_true, decide_eq_true_eq] at hp
      obtain ⟨t, ht⟩ := (jsStartsWith_iff n cn).mp hp.2
      exact ⟨n, t, rfl, hp.1, ht⟩
  · intro h x hx
    have := List.find?_eq_none.mp h x hx
    exact eq_false_of_ne_true this

/-- US region with its exchange qualifier, for the C7 witness. -/
def rUSnamed : Region :=
  { name := some "United States (NYSE/NASDAQ)", exchangeName := some "NYSE"
    companies := none, categories := none }

/-- A region that does not match "United States". -/
def rGermany : Region :=
  { name := some "Germany (XETRA)", exchangeName := none
    companies := none, categories := none }

/-- Witness for C7: `findRegion "United States"` picks the region named
`"United States (NYSE/NASDAQ)"`. -/
theorem findRegion_witness :
    findRegion "United States" [rGermany, rUSnamed] = some rUSnamed ∧
    (∃ n t, rUSnamed.name = some n ∧ n ≠ "" ∧
      n.data = "United States".data ++ t) := by
  have h : findRegion "United States" [rGermany, rUSnamed] = some rUSnamed := by
    decide
  exact ⟨h,
    ((findRegion_first_prefix_match "United States" [rGermany, rUSnamed]).1
      rUSnamed h).1⟩

/-! ### C8: US "All" concatenation -/

theorem companies_foldl_flatten : ∀ (cats : List Category) (acc : List Company),
    cats.foldl (fun acc cat =>
      match cat.companies with
      | some cs => acc ++ cs
      | none => acc) acc =
      acc ++ (cats.map (fun cat => cat.companies.getD [])).flatten
  | [], acc => by simp
  | c :: cats, acc => by
    rw [List.foldl_cons, companies_foldl_flatten cats]
    cases hc : c.companies with
    | none => simp [hc]
    | some cs => simp [hc]

/-- C8: for a region with categories (the United States region) and no
category filter or the sentinel "All", the selected companies are the
concatenation of every category's companies in category order, a category
without a `companies` array contributing nothing. -/
theorem selectCompanies_us_all (cn : String) (region : Region)
    (cats : List Category) (catQ : Option String)
    (h1 : jsStartsWith cn "United States" = true)
    (h2 : region.categories = some cats)
    (h3 : catQ = none ∨ catQ = some "All") :
    selectCompanies cn catQ region =
      some ((cats.map (fun cat => cat.companies.getD [])).flatten) := by
  have hall : usAllCompanies region =
      some ((cats.map (fun cat => cat.companies.getD [])).flatten) := by
    simp only [usAllCompanies, h2]
    rw [companies_foldl_flatten]
    simp
  rcases h3 with h3 | h3
  · subst h3
    simp [selectCompanies, h1, hall]
  · subst h3
    have hcond : (decide (("All" : String) ≠ "") &&
        decide (("All" : String) ≠ "All")) = false := by decide
    simp [selectCompanies, h1, hcond, hall]

/-- First category for the C8 witness. -/
def catCloud : Category :=
  { name := some "Cloud"
    companies := some [{ ticker := "AAA", payload := 1 }, { ticker := "BBB", payload := 2 }] }

/-- Category without a companies array. -/
def catEmpty : Category := { name := some "Fintech", companies := none }

/-- Last category for the C8 witness. -/
def catSec : Category :=
  { name := some "Security", companies := some [{ ticker := "CCC", payload := 3 }] }

/-- US region holding the three categories above. -/
def regionUS : Region :=
  { name := some "United States (NYSE/NASDAQ)", exchangeName := some "NYSE"
    companies := none, categories := some [catCloud, catEmpty, catSec] }

/-- Witness for C8: category "All" concatenates the categories in order and
skips the one without a companies array. -/
theorem selectCompanies_us_all_witness :
    selectCompanies "United States" (some "All") regionUS =
      some [{ ticker := "AAA", payload := 1 }, { ticker := "BBB", payload := 2 },
        { ticker := "CCC", payload := 3 }] := by
  have h := selectCompanies_us_all "United States" regionUS
    [catCloud, catEmpty, catSec] (some "All") (by decide) rfl (Or.inr rfl)
  rw [h]
  decide

/-! ### C9: subscribe validation -/

/-- C9: a subscribe request whose email is missing (or falsy) or fails
the email regex is answered with a 400 status and leaves both subscription
collections exactly as they were — nothing is created or updated. -/
theorem subscribe_invalid_email (st : SubState) (req : SubscribeReq)
    (h : req.email = none ∨ ∃ e, req.email = some e ∧ emailValid e = false) :
    subscribeHandler st req =
      (400, st, SubOutcome.notRequested, SubOutcome.notRequested) := by
  rcases h with h | ⟨e, he, hv⟩
  · simp [subscribeHandler, h]
  · by_cases he0 : e = ""
    · subst he0
      simp [subscribeHandler, he]
    · simp [subscribeHandler, he, he0, hv]

/-- A non-empty subscription state, to make the frame condition visible. -/
def stW : SubState :=
  { allCountries := [{ email := "a@b.c", phone := none }]
    metricsUpdates := [] }

/-- The spec's invalid subscribe request. -/
def reqBad : SubscribeReq :=
  { email := some "not-an-email", phone := none
    notifyAllCountries := true, notifyMetricsUpdates := true }

/-- Witness for C9: subscribing `"not-an-email"` returns 400 and the stored
collections are untouched. -/
theorem subscribe_invalid_email_witness :
    subscribeHandler stW reqBad =
      (400, stW, SubOutcome.notRequested, SubOutcome.notRequested) :=
  subscribe_invalid_email stW reqBad (Or.inr ⟨"not-an-email", rfl, by decide⟩)

/-! ### C10: financials endpoint 404 -/

/-- C10: the route `/api/financials/:ticker` answers 404 exactly when no
FinancialData document exists for the ticker — even when a ValuationMetrics
document exists — and 200 exactly when a FinancialData document exists. -/
theorem financials_404_iff_no_financial_data (fdOpt : Option FinancialData)
    (vmOpt : Option ValuationMetrics) :
    ((financialsHandler fdOpt vmOpt).1 = 404 ↔ fdOpt = none) ∧
    ((financialsHandler fdOpt vmOpt).1 = 200 ↔ ∃ fd, fdOpt = some fd) := by
  cases fdOpt with
  | none => cases vmOpt <;> simp [financialsHandler]
  | some fd => cases vmOpt <;> simp [financialsHandler]

/-- Witness for C6 (amended) at a two-region list. -/
theorem listCountries_sorted_dedup_witness :
    listCountries [rUSnamed, rParen] = listCountriesAmended [rUSnamed, rParen] ∧
    List.Sorted strLe (listCountries [rUSnamed, rParen]) ∧
    (listCountries [rUSnamed, rParen]).Nodup ∧
    (listCountries [rUSnamed, rParen]).length ≤ 2 :=
  listCountries_sorted_dedup [rUSnamed, rParen]

/-- Witness for C10: a ValuationMetrics document alone still gives 404, and a
FinancialData document alone gives 200. -/
theorem financials_404_witness :
    (financialsHandler none (some vmW)).1 = 404 ∧
    (financialsHandler (some fdW) none).1 = 200 :=
  ⟨(financials_404_iff_no_financial_data none (some vmW)).1.mpr rfl,
    (financials_404_iff_no_financial_data (some fdW) none).2.mpr ⟨fdW, rfl⟩⟩
